import Mathlib

/-!
Verification development for the finance-news ingestion pipeline of the
repository (files `finance_ai_agent/finance_news.py` and
`first_ai_agent/finance_news.py`).  The Python code is shallowly embedded:
strings are Lean strings (code-point lists, matching Python's code-point
semantics for `len` and slicing), external capabilities (search client,
content fetcher, summarizer, storage sink) are explicit function
parameters, and the pipeline's observable behaviour (accepted articles,
seen-URL set, capability calls and sleeps) is recorded in an explicit run
state.
-/

/-! ### Python string helpers, code-point faithful -/

/-- Python slicing `s[:n]` on code points. -/
def pyTake (s : String) (n : Nat) : String := String.mk (s.data.take n)

/-- Python `str.strip()` on a list of characters: drop whitespace from both ends. -/
def stripChars (l : List Char) : List Char :=
  ((l.dropWhile Char.isWhitespace).reverse.dropWhile Char.isWhitespace).reverse

/-- Python `str.strip()`. -/
def pyStrip (s : String) : String := String.mk (stripChars s.data)

/-- Python `str.split(sep)` for a single-character separator `sep`:
leftmost splitting, keeping empty segments.  The accumulator holds the
current segment reversed. -/
def splitChar (sep : Char) : List Char → List Char → List (List Char)
  | [], acc => [acc.reverse]
  | c :: cs, acc =>
    if c = sep then acc.reverse :: splitChar sep cs []
    else splitChar sep cs (c :: acc)

/-- Python `str.split("//")`: leftmost, non-overlapping splitting on the
two-character separator `//`, keeping empty segments. -/
def splitDSGo : List Char → List Char → List (List Char)
  | [], acc => [acc.reverse]
  | [c], acc => [acc.reverse ++ [c]]
  | c1 :: c2 :: rest, acc =>
    if c1 = '/' ∧ c2 = '/' then acc.reverse :: splitDSGo rest []
    else splitDSGo (c2 :: rest) (c1 :: acc)

/-- Python `url.split("//")`. -/
def pySplitDoubleSlash (s : String) : List String := (splitDSGo s.data []).map String.mk

/-- Python `s.split("/")`. -/
def pySplitSlash (s : String) : List String := (splitChar '/' s.data []).map String.mk

/-! ### Data model -/

/-- A search result handed to the pipeline: the dictionary
`{title, url, description}` built in `execute_brave_search`; each field is
`result.get(...)` and may be `None`. -/
structure Candidate where
  title : Option String
  url : Option String
  description : Option String
deriving DecidableEq

/-- An accepted article: the candidate dictionary after
`article['summary'] = analysis.text.strip()` was assigned. -/
structure Article where
  title : Option String
  url : Option String
  description : Option String
  summary : String
deriving DecidableEq

/-- Outcome of one summarizer call (`chat.send_message_async`):
`err` models a raised exception; `ok text` models a returned response,
where `text` is the response text and the empty string covers the falsy
cases of `if analysis and analysis.text:`. -/
inductive SummResult where
  | err : SummResult
  | ok (text : String) : SummResult
deriving DecidableEq

/-- Observable pipeline events: capability calls and sleeps, in order. -/
inductive Ev where
  | search (q : String) : Ev
  | fetch (url : Option String) : Ev
  | summarize (url : Option String) : Ev
  | store (a : Article) : Ev
  | sleepPacing : Ev
  | sleepBackoff : Ev
deriving DecidableEq

/-- Run-scoped mutable state of `process_financial_news`: the
`unique_urls` set (as a membership list), the `unique_articles` list, and
the trace of emitted events. -/
structure RunState where
  seen : List (Option String)
  accepted : List Article
  events : List Ev
deriving DecidableEq

/-- The initial state: `unique_urls = set()`, `unique_articles = []`. -/
def RunState.init : RunState := { seen := [], accepted := [], events := [] }

/-! ### The `finance_ai_agent` pipeline -/

namespace FinanceAiAgent

/-- Inner candidate loop of `process_financial_news`
(`finance_ai_agent/finance_news.py`, lines 215-267).  `f` is the content
fetcher (`get_article_content`), `sm` the summarizer keyed by the
candidate and the excerpt `content[:8000]`.  The source hardcodes
`quota = 3`; it is a parameter here and instantiated at 3 below. -/
def candidateLoop (f : Option String → String) (sm : Candidate → String → SummResult)
    (quota : Nat) : List Candidate → RunState → RunState
  | [], st => st
  | c :: rest, st =>
    if c.url ∈ st.seen ∨ quota ≤ st.accepted.length then
      candidateLoop f sm quota rest st
    else
      let st1 : RunState :=
        { st with seen := c.url :: st.seen, events := st.events ++ [Ev.fetch c.url] }
      let content := f c.url
      if content = "" ∨ content.length < 500 then
        candidateLoop f sm quota rest st1
      else
        let st2 : RunState := { st1 with events := st1.events ++ [Ev.summarize c.url] }
        match sm c (pyTake content 8000) with
        | SummResult.err =>
          candidateLoop f sm quota rest { st2 with events := st2.events ++ [Ev.sleepBackoff] }
        | SummResult.ok text =>
          if text = "" then candidateLoop f sm quota rest st2
          else
            let s := pyStrip text
            if 50 < s.length then
              let a : Article :=
                { title := c.title, url := c.url, description := c.description, summary := s }
              candidateLoop f sm quota rest
                { st2 with accepted := st2.accepted ++ [a],
                           events := st2.events ++ [Ev.store a, Ev.sleepPacing] }
            else candidateLoop f sm quota rest st2

/-- Outer query loop of `process_financial_news`
(`finance_ai_agent/finance_news.py`, lines 209-213): break before the
search once the quota is reached. -/
def queryLoop (srch : String → List Candidate) (f : Option String → String)
    (sm : Candidate → String → SummResult) (quota : Nat) :
    List String → RunState → RunState
  | [], st => st
  | q :: qs, st =>
    if quota ≤ st.accepted.length then st
    else
      let st1 : RunState := { st with events := st.events ++ [Ev.search q] }
      queryLoop srch f sm quota qs (candidateLoop f sm quota (srch q) st1)

/-- The hardcoded query list of `finance_ai_agent/finance_news.py`. -/
def search_queries : List String :=
  ["stock market news today", "financial markets update", "market analysis today"]

/-- `process_financial_news` of `finance_ai_agent/finance_news.py`,
parameterized by the external capabilities; the source hardcodes the
target quota 3 and the query list. -/
def process_financial_news (srch : String → List Candidate) (f : Option String → String)
    (sm : Candidate → String → SummResult) : RunState :=
  queryLoop srch f sm 3 search_queries RunState.init

/-- A raw Brave search result, fields possibly missing (`result.get`). -/
structure RawResult where
  title : Option String
  url : Option String
  description : Option String
deriving DecidableEq

/-- The filter of `execute_brave_search`
(`finance_ai_agent/finance_news.py`, lines 110-113):
`result.get("url") and not result.get("url").endswith((".com", ".com/"))`. -/
def urlKeep : Option String → Bool
  | none => false
  | some u => (!(u = "")) && (!(u.endsWith ".com" || u.endsWith ".com/"))

/-- Result-shaping of `execute_brave_search`
(`finance_ai_agent/finance_news.py`, lines 110-122): filter, then project
to `{title, url, description}`. -/
def execute_brave_search_filter (results : List RawResult) : List Candidate :=
  (results.filter (fun r => urlKeep r.url)).map
    (fun r => { title := r.title, url := r.url, description := r.description })

end FinanceAiAgent

/-! ### The `first_ai_agent` pipeline -/

namespace FirstAiAgent

/-- Inner candidate loop of `process_financial_news`
(`first_ai_agent/finance_news.py`, lines 210-257).  Unlike the
`finance_ai_agent` version there is no per-candidate `try/except`: a
summarizer exception propagates out of both loops (to the function-level
handler), which the Boolean component records as an abort.  The source
hardcodes `quota = 5`. -/
def candidateLoop (f : Option String → String) (sm : Candidate → String → SummResult)
    (quota : Nat) : List Candidate → RunState → RunState × Bool
  | [], st => (st, false)
  | c :: rest, st =>
    if c.url ∈ st.seen then candidateLoop f sm quota rest st
    else if quota ≤ st.accepted.length then (st, false)
    else
      let st1 : RunState :=
        { st with seen := c.url :: st.seen, events := st.events ++ [Ev.fetch c.url] }
      let content := f c.url
      if content = "" ∨ content.length < 500 then
        candidateLoop f sm quota rest st1
      else
        let st2 : RunState := { st1 with events := st1.events ++ [Ev.summarize c.url] }
        match sm c (pyTake content 8000) with
        | SummResult.err => (st2, true)
        | SummResult.ok text =>
          if text = "" then candidateLoop f sm quota rest st2
          else
            let s := pyStrip text
            if 50 < s.length then
              let a : Article :=
                { title := c.title, url := c.url, description := c.description, summary := s }
              candidateLoop f sm quota rest
                { st2 with accepted := st2.accepted ++ [a],
                           events := st2.events ++ [Ev.store a] }
            else candidateLoop f sm quota rest st2

/-- Outer query loop of `process_financial_news`
(`first_ai_agent/finance_news.py`, lines 204-257): break before the
search once the quota is reached; an abort from the inner loop ends the
run (the exception is only caught at the function boundary). -/
def queryLoop (srch : String → List Candidate) (f : Option String → String)
    (sm : Candidate → String → SummResult) (quota : Nat) :
    List String → RunState → RunState
  | [], st => st
  | q :: qs, st =>
    if quota ≤ st.accepted.length then st
    else
      let st1 : RunState := { st with events := st.events ++ [Ev.search q] }
      let res := candidateLoop f sm quota (srch q) st1
      if res.2 then res.1 else queryLoop srch f sm quota qs res.1

/-- The hardcoded query list of `first_ai_agent/finance_news.py`. -/
def search_queries : List String :=
  ["stock market news today", "financial markets update", "market analysis today",
   "trading stocks news", "market movers today"]

/-- `process_financial_news` of `first_ai_agent/finance_news.py`,
parameterized by the external capabilities; the source hardcodes the
target quota 5 and the query list. -/
def process_financial_news (srch : String → List Candidate) (f : Option String → String)
    (sm : Candidate → String → SummResult) : RunState :=
  queryLoop srch f sm 5 search_queries RunState.init

end FirstAiAgent

/-! ### The storage sink `store_article_in_supabase`
(identical logic in both source files) -/

/-- Python dictionary truthiness of an optional string field. -/
def truthy : Option String → Bool
  | none => false
  | some s => !(s = "")

/-- `article.get("url", "").split("//")[-1].split("/")[0]`: the authority
component of the url, case-preserving. -/
def deriveSource (url : String) : String :=
  (pySplitSlash ((pySplitDoubleSlash url).getLastD "")).headD ""

/-- Input of `store_article_in_supabase`: the fields read from the
article dictionary via `.get` (absent keys are `none`). -/
structure StoreInput where
  title : Option String
  url : Option String
  summary : Option String
deriving DecidableEq

/-- The row `store_article_in_supabase` would insert (the wall-clock
`created_at` field is not modelled). -/
structure StoredData where
  title : Option String
  url : Option String
  finance_info : Option String
  source : String
deriving DecidableEq

/-- `store_article_in_supabase` (both source files, identical logic):
`some data` means the validation passed and the insert is attempted with
`data`; `none` means the function returns `False` without attempting
persistence.  Whether an attempted insert succeeds depends on the
external client and is outside this embedding. -/
def store_article_in_supabase (article : StoreInput) : Option StoredData :=
  let source := deriveSource (article.url.getD "")
  let data : StoredData :=
    { title := article.title, url := article.url,
      finance_info := article.summary, source := source }
  if truthy data.title && truthy data.url && truthy data.finance_info
      && (!(data.source = "")) then some data
  else none

/-! ### The content fetcher `get_article_content`
(identical logic in both source files) -/

/-- Outcome of the network-and-parse part of `get_article_content`:
`err` models any raised exception (request failure, bad status, parse
error), `ok raw` the text extracted by `soup.get_text` after the markup
cleanup. -/
inductive FetchOutcome where
  | err : FetchOutcome
  | ok (raw : String) : FetchOutcome

/-- The line cleanup of `get_article_content`:
`'\n'.join(line.strip() for line in text.splitlines() if line.strip())`. -/
def cleanedText (raw : String) : String :=
  String.mk (List.intercalate [ '\n' ]
    (((splitChar '\n' raw.data []).map stripChars).filter (fun l => l ≠ [])))

/-- `get_article_content` (both source files): every exception yields
`""`; cleaned text shorter than 100 characters is replaced by `""`. -/
def get_article_content (o : FetchOutcome) : String :=
  match o with
  | FetchOutcome.err => ""
  | FetchOutcome.ok raw =>
    let cleaned := cleanedText raw
    if cleaned.length < 100 then "" else cleaned

/-! ### Event projections and invariants -/

/-- The url of a fetch event, if any. -/
def evFetchUrl : Ev → Option (Option String)
  | Ev.fetch u => some u
  | _ => none

/-- The url of a summarize event, if any. -/
def evSummUrl : Ev → Option (Option String)
  | Ev.summarize u => some u
  | _ => none

/-- Urls passed to the content fetcher, in call order. -/
def fetchUrls (es : List Ev) : List (Option String) := es.filterMap evFetchUrl

/-- Urls of the candidates submitted to the summarizer, in call order. -/
def summUrls (es : List Ev) : List (Option String) := es.filterMap evSummUrl

/-- Run invariant tying the accumulated articles and the emitted
capability calls to the seen-URL set: every accepted article's url is
seen, its summary passed the strict 50-character check, its fetched
content passed the 500-character gate; accepted urls are pairwise
distinct; the accepted count is bounded by the quota; fetch and summarize
calls are pairwise distinct per url and only ever made for seen urls. -/
def RunInv (f : Option String → String) (quota : Nat) (st : RunState) : Prop :=
  (∀ a ∈ st.accepted, a.url ∈ st.seen ∧ 50 < a.summary.length ∧ 500 ≤ (f a.url).length) ∧
  (st.accepted.map Article.url).Nodup ∧
  st.accepted.length ≤ quota ∧
  (fetchUrls st.events).Nodup ∧
  (summUrls st.events).Nodup ∧
  (∀ u ∈ fetchUrls st.events, u ∈ st.seen) ∧
  (∀ u ∈ summUrls st.events, u ∈ st.seen)

/-! ### Concrete mock inputs for scenarios, witnesses and counterexamples -/

/-- A block of `n` letters `a`, used as mock article content. -/
def mkContent (n : Nat) : String := String.mk (List.replicate n 'a')

/-- A block of `n` letters `s`, used as mock summary text (whitespace-free,
so `pyStrip` leaves it unchanged). -/
def mkSummary (n : Nat) : String := String.mk (List.replicate n 's')

/-- Scenario candidate for the quota short-circuit scenario: url `http://x.com`. -/
def scenC8Candidate : Candidate :=
  { title := some "t", url := some "http://x.com", description := none }

/-- Scenario search client: query `a` yields the single candidate, any
other query yields a distinct fresh candidate. -/
def scenC8Search : String → List Candidate := fun q =>
  if q = "a" then [scenC8Candidate]
  else [{ title := some "t2", url := some "http://y.com", description := none }]

/-- Scenario fetcher: every url yields 1000 characters of content. -/
def scenC8Fetch : Option String → String := fun _ => mkContent 1000

/-- Scenario summarizer: always succeeds with an 80-character summary. -/
def scenC8Summ : Candidate → String → SummResult := fun _ _ => SummResult.ok (mkSummary 80)

/-- The scenario run: queries `[a, b]`, quota 1, on the
`finance_ai_agent` loop structure. -/
def scenC8Run : RunState :=
  FinanceAiAgent.queryLoop scenC8Search scenC8Fetch scenC8Summ 1 ["a", "b"] RunState.init

/-- Search client for the exact-50 counterexample: the first hardcoded
query yields one candidate, the others none. -/
def cxC4Search : String → List Candidate := fun q =>
  if q = "stock market news today"
  then [{ title := some "T", url := some "http://x.com", description := none }]
  else []

/-- Fetcher for the exact-50 counterexample: 500 characters of content,
which passes the content gate. -/
def cxC4Fetch : Option String → String := fun _ => mkContent 500

/-- Summarizer for the exact-50 counterexample: succeeds with a summary
whose trimmed length is exactly 50. -/
def cxC4Summ : Candidate → String → SummResult := fun _ _ => SummResult.ok (mkSummary 50)

/-- The exact-50 counterexample run of the `finance_ai_agent` pipeline. -/
def cxC4Run : RunState := FinanceAiAgent.process_financial_news cxC4Search cxC4Fetch cxC4Summ

/-- First candidate of the backoff counterexample (summarizer fails on it). -/
def cxC3c1 : Candidate := { title := some "T1", url := some "http://a.com/1", description := none }

/-- Second candidate of the backoff counterexample (would be accepted). -/
def cxC3c2 : Candidate := { title := some "T2", url := some "http://a.com/2", description := none }

/-- Search client for the backoff counterexample: the first hardcoded
query yields both candidates in order. -/
def cxC3Search : String → List Candidate := fun q =>
  if q = "stock market news today" then [cxC3c1, cxC3c2] else []

/-- Fetcher for the backoff counterexample: 600 characters for every url. -/
def cxC3Fetch : Option String → String := fun _ => mkContent 600

/-- Summarizer for the backoff counterexample: raises on the first
candidate, succeeds with an 80-character summary otherwise. -/
def cxC3Summ : Candidate → String → SummResult := fun c _ =>
  if c = cxC3c1 then SummResult.err else SummResult.ok (mkSummary 80)

/-- The backoff counterexample run of the `first_ai_agent` pipeline. -/
def cxC3Run : RunState := FirstAiAgent.process_financial_news cxC3Search cxC3Fetch cxC3Summ

/-- Search client for the null-url counterexample: the first hardcoded
query yields one candidate whose url is missing (`None`). -/
def cxC7Search : String → List Candidate := fun q =>
  if q = "stock market news today"
  then [{ title := some "T", url := none, description := none }]
  else []

/-- Fetcher for the null-url counterexample: every fetch fails (empty). -/
def cxC7Fetch : Option String → String := fun _ => ""

/-- Summarizer for the null-url counterexample (never reached). -/
def cxC7Summ : Candidate → String → SummResult := fun _ _ => SummResult.err

/-- The null-url counterexample run of the `first_ai_agent` pipeline. -/
def cxC7Run : RunState := FirstAiAgent.process_financial_news cxC7Search cxC7Fetch cxC7Summ


/-! ### Lemmas -/

@[simp] theorem fetchUrls_nil : fetchUrls [] = [] := rfl

@[simp] theorem fetchUrls_cons_search (q : String) (es : List Ev) :
    fetchUrls (Ev.search q :: es) = fetchUrls es := rfl

@[simp] theorem fetchUrls_cons_fetch (u : Option String) (es : List Ev) :
    fetchUrls (Ev.fetch u :: es) = u :: fetchUrls es := rfl

@[simp] theorem fetchUrls_cons_summarize (u : Option String) (es : List Ev) :
    fetchUrls (Ev.summarize u :: es) = fetchUrls es := rfl

@[simp] theorem fetchUrls_cons_store (a : Article) (es : List Ev) :
    fetchUrls (Ev.store a :: es) = fetchUrls es := rfl

@[simp] theorem fetchUrls_cons_pacing (es : List Ev) :
    fetchUrls (Ev.sleepPacing :: es) = fetchUrls es := rfl

@[simp] theorem fetchUrls_cons_backoff (es : List Ev) :
    fetchUrls (Ev.sleepBackoff :: es) = fetchUrls es := rfl

@[simp] theorem summUrls_nil : summUrls [] = [] := rfl

@[simp] theorem summUrls_cons_search (q : String) (es : List Ev) :
    summUrls (Ev.search q :: es) = summUrls es := rfl

@[simp] theorem summUrls_cons_fetch (u : Option String) (es : List Ev) :
    summUrls (Ev.fetch u :: es) = summUrls es := rfl

@[simp] theorem summUrls_cons_summarize (u : Option String) (es : List Ev) :
    summUrls (Ev.summarize u :: es) = u :: summUrls es := rfl

@[simp] theorem summUrls_cons_store (a : Article) (es : List Ev) :
    summUrls (Ev.store a :: es) = summUrls es := rfl

@[simp] theorem summUrls_cons_pacing (es : List Ev) :
    summUrls (Ev.sleepPacing :: es) = summUrls es := rfl

@[simp] theorem summUrls_cons_backoff (es : List Ev) :
    summUrls (Ev.sleepBackoff :: es) = summUrls es := rfl

@[simp] theorem fetchUrls_append (a b : List Ev) :
    fetchUrls (a ++ b) = fetchUrls a ++ fetchUrls b :=
  List.filterMap_append a b evFetchUrl

@[simp] theorem summUrls_append (a b : List Ev) :
    summUrls (a ++ b) = summUrls a ++ summUrls b :=
  List.filterMap_append a b evSummUrl

theorem RunInv.search_step {f : Option String → String} {quota : Nat} {st : RunState}
    (h : RunInv f quota st) (q : String) :
    RunInv f quota { st with events := st.events ++ [Ev.search q] } := by
  obtain ⟨h1, h2, h3, h4, h5, h6, h7⟩ := h
  refine ⟨h1, h2, h3, by simpa using h4, by simpa using h5, ?_, ?_⟩
  · intro u hu
    simp only [fetchUrls_append, fetchUrls_cons_search, fetchUrls_nil,
      List.append_nil] at hu
    exact h6 u hu
  · intro u hu
    simp only [summUrls_append, summUrls_cons_search, summUrls_nil,
      List.append_nil] at hu
    exact h7 u hu

theorem RunInv.fetch_step {f : Option String → String} {quota : Nat} {st : RunState}
    {u : Option String} (h : RunInv f quota st) (hu : u ∉ st.seen) :
    RunInv f quota { st with seen := u :: st.seen, events := st.events ++ [Ev.fetch u] } := by
  obtain ⟨h1, h2, h3, h4, h5, h6, h7⟩ := h
  refine ⟨?_, h2, h3, ?_, by simpa using h5, ?_, ?_⟩
  · intro a ha
    obtain ⟨ha1, ha2, ha3⟩ := h1 a ha
    exact ⟨List.mem_cons_of_mem _ ha1, ha2, ha3⟩
  · simp only [fetchUrls_append, fetchUrls_cons_fetch, fetchUrls_nil, List.nodup_append,
      List.nodup_cons, List.not_mem_nil, not_false_iff, List.nodup_nil, true_and]
    refine ⟨h4, ?_⟩
    intro x hx
    simp only [List.mem_singleton]
    intro hxu
    exact hu (hxu ▸ h6 x hx)
  · intro x hx
    simp only [fetchUrls_append, fetchUrls_cons_fetch, fetchUrls_nil] at hx
    rcases List.mem_append.mp hx with hx | hx
    · exact List.mem_cons_of_mem _ (h6 x hx)
    · simp only [List.mem_singleton] at hx
      simp [hx]
  · intro x hx
    simp only [summUrls_append, summUrls_cons_fetch, summUrls_nil, List.append_nil] at hx
    exact List.mem_cons_of_mem _ (h7 x hx)

theorem list_disj_single {α} {l s : List α} {u : α}
    (hsub : ∀ x ∈ l, x ∈ s) (hu : u ∉ s) : l.Disjoint [u] := by
  intro x hx hy
  simp only [List.mem_singleton] at hy
  exact hu (hy ▸ hsub x hx)

theorem RunInv.summ_step {f : Option String → String} {quota : Nat} {st : RunState}
    {u : Option String} (h : RunInv f quota st) (hu : u ∉ st.seen) :
    RunInv f quota
      ⟨u :: st.seen, st.accepted, (st.events ++ [Ev.fetch u]) ++ [Ev.summarize u]⟩ := by
  obtain ⟨h1, h2, h3, h4, h5, h6, h7⟩ := h
  refine ⟨?_, h2, h3, ?_, ?_, ?_, ?_⟩
  · intro a ha
    obtain ⟨ha1, ha2, ha3⟩ := h1 a ha
    exact ⟨List.mem_cons_of_mem _ ha1, ha2, ha3⟩
  · simp only [fetchUrls_append, fetchUrls_cons_fetch, fetchUrls_cons_summarize,
      fetchUrls_nil, List.append_nil]
    exact List.Nodup.append h4 (List.nodup_singleton u) (list_disj_single h6 hu)
  · simp only [summUrls_append, summUrls_cons_fetch, summUrls_cons_summarize,
      summUrls_nil, List.append_nil]
    exact List.Nodup.append h5 (List.nodup_singleton u) (list_disj_single h7 hu)
  · intro x hx
    simp only [fetchUrls_append, fetchUrls_cons_fetch, fetchUrls_cons_summarize,
      fetchUrls_nil, List.append_nil, List.mem_append, List.mem_singleton] at hx
    rcases hx with hx | hx
    · exact List.mem_cons_of_mem _ (h6 x hx)
    · simp [hx]
  · intro x hx
    simp only [summUrls_append, summUrls_cons_fetch, summUrls_cons_summarize,
      summUrls_nil, List.append_nil, List.mem_append, List.mem_singleton] at hx
    rcases hx with hx | hx
    · exact List.mem_cons_of_mem _ (h7 x hx)
    · simp [hx]

theorem RunInv.neutral_step {f : Option String → String} {quota : Nat} {st : RunState}
    {e : Ev} (h : RunInv f quota st) (he1 : evFetchUrl e = none) (he2 : evSummUrl e = none) :
    RunInv f quota { st with events := st.events ++ [e] } := by
  obtain ⟨h1, h2, h3, h4, h5, h6, h7⟩ := h
  have hf : fetchUrls [e] = [] := by simp [fetchUrls, he1]
  have hs : summUrls [e] = [] := by simp [summUrls, he2]
  refine ⟨h1, h2, h3, ?_, ?_, ?_, ?_⟩
  · simpa [hf] using h4
  · simpa [hs] using h5
  · intro x hx
    simp only [fetchUrls_append, hf, List.append_nil] at hx
    exact h6 x hx
  · intro x hx
    simp only [summUrls_append, hs, List.append_nil] at hx
    exact h7 x hx

theorem RunInv.accept_step {f : Option String → String} {quota : Nat} {st : RunState}
    {u : Option String} {a : Article} {tail : List Ev}
    (h : RunInv f quota st) (hu : u ∉ st.seen) (hq : st.accepted.length < quota)
    (haurl : a.url = u) (hsum : 50 < a.summary.length) (hfl : 500 ≤ (f u).length)
    (ht1 : fetchUrls tail = []) (ht2 : summUrls tail = []) :
    RunInv f quota
      ⟨u :: st.seen, st.accepted ++ [a],
        ((st.events ++ [Ev.fetch u]) ++ [Ev.summarize u]) ++ tail⟩ := by
  subst haurl
  obtain ⟨h1, h2, h3, h4, h5, h6, h7⟩ := h
  refine ⟨?_, ?_, ?_, ?_, ?_, ?_, ?_⟩
  · intro b hb
    rcases List.mem_append.mp hb with hb | hb
    · obtain ⟨hb1, hb2, hb3⟩ := h1 b hb
      exact ⟨List.mem_cons_of_mem _ hb1, hb2, hb3⟩
    · simp only [List.mem_singleton] at hb
      subst hb
      exact ⟨List.mem_cons_self _ _, hsum, hfl⟩
  · simp only [List.map_append, List.map_singleton]
    refine List.Nodup.append h2 (List.nodup_singleton _) (list_disj_single ?_ hu)
    intro x hx
    obtain ⟨b, hb, hbx⟩ := List.mem_map.mp hx
    exact hbx ▸ (h1 b hb).1
  · simpa using hq
  · simp only [fetchUrls_append, fetchUrls_cons_fetch, fetchUrls_cons_summarize,
      fetchUrls_nil, List.append_nil, ht1]
    exact List.Nodup.append h4 (List.nodup_singleton _) (list_disj_single h6 hu)
  · simp only [summUrls_append, summUrls_cons_fetch, summUrls_cons_summarize,
      summUrls_nil, List.append_nil, ht2]
    exact List.Nodup.append h5 (List.nodup_singleton _) (list_disj_single h7 hu)
  · intro x hx
    simp only [fetchUrls_append, fetchUrls_cons_fetch, fetchUrls_cons_summarize,
      fetchUrls_nil, List.append_nil, ht1, List.mem_append, List.mem_singleton] at hx
    rcases hx with hx | hx
    · exact List.mem_cons_of_mem _ (h6 x hx)
    · simp [hx]
  · intro x hx
    simp only [summUrls_append, summUrls_cons_fetch, summUrls_cons_summarize,
      summUrls_nil, List.append_nil, ht2, List.mem_append, List.mem_singleton] at hx
    rcases hx with hx | hx
    · exact List.mem_cons_of_mem _ (h7 x hx)
    · simp [hx]

theorem finance_candidateLoop_inv (f : Option String → String)
    (sm : Candidate → String → SummResult)
    (quota : Nat) (l : List Candidate) (st : RunState) (h : RunInv f quota st) :
    RunInv f quota (FinanceAiAgent.candidateLoop f sm quota l st) := by
  induction l generalizing st with
  | nil => simpa [FinanceAiAgent.candidateLoop] using h
  | cons c rest ih =>
    rw [FinanceAiAgent.candidateLoop]
    split
    · exact ih _ h
    · rename_i hg
      push_neg at hg
      obtain ⟨hu, hq⟩ := hg
      dsimp only
      split
      · rename_i hshort
        exact ih _ (h.fetch_step hu)
      · rename_i hlong
        push_neg at hlong
        obtain ⟨hne, hlen⟩ := hlong
        have hfl : 500 ≤ (f c.url).length := hlen
        split
        · exact ih _ ((h.summ_step hu).neutral_step rfl rfl)
        · rename_i text heq
          split
          · exact ih _ (h.summ_step hu)
          · rename_i htext
            split
            · rename_i hlen50
              exact ih _ (h.accept_step hu hq rfl hlen50 hfl rfl rfl)
            · exact ih _ (h.summ_step hu)

theorem first_candidateLoop_inv (f : Option String → String)
    (sm : Candidate → String → SummResult)
    (quota : Nat) (l : List Candidate) (st : RunState) (h : RunInv f quota st) :
    RunInv f quota (FirstAiAgent.candidateLoop f sm quota l st).1 := by
  induction l generalizing st with
  | nil => simpa [FirstAiAgent.candidateLoop] using h
  | cons c rest ih =>
    rw [FirstAiAgent.candidateLoop]
    split
    · exact ih _ h
    · rename_i hu
      split
      · exact h
      · rename_i hql
        have hq : st.accepted.length < quota := Nat.lt_of_not_le hql
        dsimp only
        split
        · exact ih _ (h.fetch_step hu)
        · rename_i hlong
          push_neg at hlong
          obtain ⟨hne, hfl⟩ := hlong
          split
          · exact h.summ_step hu
          · rename_i text heq
            split
            · exact ih _ (h.summ_step hu)
            · rename_i htext
              split
              · rename_i hlen50
                exact ih _ (h.accept_step hu hq rfl hlen50 hfl rfl rfl)
              · exact ih _ (h.summ_step hu)

theorem finance_queryLoop_inv (srch : String → List Candidate) (f : Option String → String)
    (sm : Candidate → String → SummResult)
    (quota : Nat) (qs : List String) (st : RunState) (h : RunInv f quota st) :
    RunInv f quota (FinanceAiAgent.queryLoop srch f sm quota qs st) := by
  induction qs generalizing st with
  | nil => simpa [FinanceAiAgent.queryLoop] using h
  | cons q qs ih =>
    rw [FinanceAiAgent.queryLoop]
    split
    · exact h
    · exact ih _ (finance_candidateLoop_inv f sm quota (srch q) _ (h.search_step q))

theorem first_queryLoop_inv (srch : String → List Candidate) (f : Option String → String)
    (sm : Candidate → String → SummResult)
    (quota : Nat) (qs : List String) (st : RunState) (h : RunInv f quota st) :
    RunInv f quota (FirstAiAgent.queryLoop srch f sm quota qs st) := by
  induction qs generalizing st with
  | nil => simpa [FirstAiAgent.queryLoop] using h
  | cons q qs ih =>
    rw [FirstAiAgent.queryLoop]
    split
    · exact h
    · dsimp only
      split
      · exact first_candidateLoop_inv f sm quota (srch q) _ (h.search_step q)
      · exact ih _ (first_candidateLoop_inv f sm quota (srch q) _ (h.search_step q))

theorem runInv_init (f : Option String → String) (quota : Nat) :
    RunInv f quota RunState.init := by
  refine ⟨?_, ?_, ?_, ?_, ?_, ?_, ?_⟩ <;> simp [RunState.init, fetchUrls, summUrls]

/-- The invariant holds of every complete `finance_ai_agent` run. -/
theorem finance_run_inv (srch : String → List Candidate) (f : Option String → String)
    (sm : Candidate → String → SummResult) :
    RunInv f 3 (FinanceAiAgent.process_financial_news srch f sm) :=
  finance_queryLoop_inv srch f sm 3 FinanceAiAgent.search_queries RunState.init
    (runInv_init f 3)

/-- The invariant holds of every complete `first_ai_agent` run. -/
theorem first_run_inv (srch : String → List Candidate) (f : Option String → String)
    (sm : Candidate → String → SummResult) :
    RunInv f 5 (FirstAiAgent.process_financial_news srch f sm) :=
  first_queryLoop_inv srch f sm 5 FirstAiAgent.search_queries RunState.init
    (runInv_init f 5)

/-! ### Seen-set monotonicity and per-branch step equations -/

theorem finance_candidateLoop_seen_sub (f : Option String → String)
    (sm : Candidate → String → SummResult) (quota : Nat)
    (l : List Candidate) (st : RunState) :
    st.seen ⊆ (FinanceAiAgent.candidateLoop f sm quota l st).seen := by
  induction l generalizing st with
  | nil => simp [FinanceAiAgent.candidateLoop]
  | cons c rest ih =>
    have hstep : st.seen ⊆ c.url :: st.seen := fun x hx => List.mem_cons_of_mem _ hx
    rw [FinanceAiAgent.candidateLoop]
    split
    · exact ih st
    · dsimp only
      split
      · exact fun x hx => ih _ (hstep hx)
      · split
        · exact fun x hx => ih _ (hstep hx)
        · split
          · exact fun x hx => ih _ (hstep hx)
          · split
            · exact fun x hx => ih _ (hstep hx)
            · exact fun x hx => ih _ (hstep hx)

theorem first_candidateLoop_seen_sub (f : Option String → String)
    (sm : Candidate → String → SummResult) (quota : Nat)
    (l : List Candidate) (st : RunState) :
    st.seen ⊆ (FirstAiAgent.candidateLoop f sm quota l st).1.seen := by
  induction l generalizing st with
  | nil => simp [FirstAiAgent.candidateLoop]
  | cons c rest ih =>
    have hstep : st.seen ⊆ c.url :: st.seen := fun x hx => List.mem_cons_of_mem _ hx
    rw [FirstAiAgent.candidateLoop]
    split
    · exact ih st
    · split
      · exact fun x hx => hx
      · dsimp only
        split
        · exact fun x hx => ih _ (hstep hx)
        · split
          · exact hstep
          · split
            · exact fun x hx => ih _ (hstep hx)
            · split
              · exact fun x hx => ih _ (hstep hx)
              · exact fun x hx => ih _ (hstep hx)

theorem finance_skip_eq (f : Option String → String) (sm : Candidate → String → SummResult)
    (quota : Nat) (c : Candidate) (rest : List Candidate) (st : RunState)
    (h : c.url ∈ st.seen) :
    FinanceAiAgent.candidateLoop f sm quota (c :: rest) st
      = FinanceAiAgent.candidateLoop f sm quota rest st := by
  rw [FinanceAiAgent.candidateLoop, if_pos (Or.inl h)]

theorem first_skip_eq (f : Option String → String) (sm : Candidate → String → SummResult)
    (quota : Nat) (c : Candidate) (rest : List Candidate) (st : RunState)
    (h : c.url ∈ st.seen) :
    FirstAiAgent.candidateLoop f sm quota (c :: rest) st
      = FirstAiAgent.candidateLoop f sm quota rest st := by
  rw [FirstAiAgent.candidateLoop, if_pos h]

theorem finance_short_content_eq (f : Option String → String)
    (sm : Candidate → String → SummResult) (quota : Nat)
    (c : Candidate) (rest : List Candidate) (st : RunState)
    (h1 : c.url ∉ st.seen) (h2 : st.accepted.length < quota)
    (h3 : f c.url = "" ∨ (f c.url).length < 500) :
    FinanceAiAgent.candidateLoop f sm quota (c :: rest) st
      = FinanceAiAgent.candidateLoop f sm quota rest
          ⟨c.url :: st.seen, st.accepted, st.events ++ [Ev.fetch c.url]⟩ := by
  rw [FinanceAiAgent.candidateLoop, if_neg (not_or.mpr ⟨h1, Nat.not_le.mpr h2⟩)]
  dsimp only
  rw [if_pos h3]

theorem finance_backoff_eq (f : Option String → String)
    (sm : Candidate → String → SummResult) (quota : Nat)
    (c : Candidate) (rest : List Candidate) (st : RunState)
    (h1 : c.url ∉ st.seen) (h2 : st.accepted.length < quota)
    (h3 : ¬(f c.url = "" ∨ (f c.url).length < 500))
    (h4 : sm c (pyTake (f c.url) 8000) = SummResult.err) :
    FinanceAiAgent.candidateLoop f sm quota (c :: rest) st
      = FinanceAiAgent.candidateLoop f sm quota rest
          ⟨c.url :: st.seen, st.accepted,
            ((st.events ++ [Ev.fetch c.url]) ++ [Ev.summarize c.url]) ++ [Ev.sleepBackoff]⟩ := by
  rw [FinanceAiAgent.candidateLoop, if_neg (not_or.mpr ⟨h1, Nat.not_le.mpr h2⟩)]
  dsimp only
  rw [if_neg h3, h4]

theorem first_abort_eq (f : Option String → String)
    (sm : Candidate → String → SummResult) (quota : Nat)
    (c : Candidate) (rest : List Candidate) (st : RunState)
    (h1 : c.url ∉ st.seen) (h2 : st.accepted.length < quota)
    (h3 : ¬(f c.url = "" ∨ (f c.url).length < 500))
    (h4 : sm c (pyTake (f c.url) 8000) = SummResult.err) :
    FirstAiAgent.candidateLoop f sm quota (c :: rest) st
      = (⟨c.url :: st.seen, st.accepted,
          (st.events ++ [Ev.fetch c.url]) ++ [Ev.summarize c.url]⟩, true) := by
  rw [FirstAiAgent.candidateLoop, if_neg h1, if_neg (Nat.not_le.mpr h2)]
  dsimp only
  rw [if_neg h3, h4]

theorem finance_accept_eq (f : Option String → String)
    (sm : Candidate → String → SummResult) (quota : Nat)
    (c : Candidate) (rest : List Candidate) (st : RunState) (text : String)
    (h1 : c.url ∉ st.seen) (h2 : st.accepted.length < quota)
    (h3 : ¬(f c.url = "" ∨ (f c.url).length < 500))
    (h4 : sm c (pyTake (f c.url) 8000) = SummResult.ok text)
    (h5 : text ≠ "") (h6 : 50 < (pyStrip text).length) :
    FinanceAiAgent.candidateLoop f sm quota (c :: rest) st
      = FinanceAiAgent.candidateLoop f sm quota rest
          ⟨c.url :: st.seen,
            st.accepted ++ [⟨c.title, c.url, c.description, pyStrip text⟩],
            ((st.events ++ [Ev.fetch c.url]) ++ [Ev.summarize c.url])
              ++ [Ev.store ⟨c.title, c.url, c.description, pyStrip text⟩, Ev.sleepPacing]⟩ := by
  rw [FinanceAiAgent.candidateLoop, if_neg (not_or.mpr ⟨h1, Nat.not_le.mpr h2⟩)]
  dsimp only
  rw [if_neg h3, h4]
  dsimp only
  rw [if_neg h5, if_pos h6]

theorem finance_lowquality_eq (f : Option String → String)
    (sm : Candidate → String → SummResult) (quota : Nat)
    (c : Candidate) (rest : List Candidate) (st : RunState) (text : String)
    (h1 : c.url ∉ st.seen) (h2 : st.accepted.length < quota)
    (h3 : ¬(f c.url = "" ∨ (f c.url).length < 500))
    (h4 : sm c (pyTake (f c.url) 8000) = SummResult.ok text)
    (h5 : ¬(50 < (pyStrip text).length)) :
    FinanceAiAgent.candidateLoop f sm quota (c :: rest) st
      = FinanceAiAgent.candidateLoop f sm quota rest
          ⟨c.url :: st.seen, st.accepted,
            (st.events ++ [Ev.fetch c.url]) ++ [Ev.summarize c.url]⟩ := by
  rw [FinanceAiAgent.candidateLoop, if_neg (not_or.mpr ⟨h1, Nat.not_le.mpr h2⟩)]
  dsimp only
  rw [if_neg h3, h4]
  dsimp only
  by_cases h6 : text = ""
  · rw [if_pos h6]
  · rw [if_neg h6, if_neg h5]

theorem finance_queryLoop_stop (srch : String → List Candidate) (f : Option String → String)
    (sm : Candidate → String → SummResult) (quota : Nat) (qs : List String) (st : RunState)
    (h : quota ≤ st.accepted.length) :
    FinanceAiAgent.queryLoop srch f sm quota qs st = st := by
  cases qs with
  | nil => rfl
  | cons q qs => rw [FinanceAiAgent.queryLoop, if_pos h]

theorem first_queryLoop_stop (srch : String → List Candidate) (f : Option String → String)
    (sm : Candidate → String → SummResult) (quota : Nat) (qs : List String) (st : RunState)
    (h : quota ≤ st.accepted.length) :
    FirstAiAgent.queryLoop srch f sm quota qs st = st := by
  cases qs with
  | nil => rfl
  | cons q qs => rw [FirstAiAgent.queryLoop, if_pos h]

/-! ### Storage sink and content fetcher lemmas -/

theorem store_none_or_some (a : StoreInput) :
    store_article_in_supabase a = none ∨
      store_article_in_supabase a
        = some ⟨a.title, a.url, a.summary, deriveSource (a.url.getD "")⟩ := by
  unfold store_article_in_supabase
  dsimp only
  split
  · right; rfl
  · left; rfl

theorem store_isSome_iff (a : StoreInput) :
    (store_article_in_supabase a).isSome = true ↔
      (truthy a.title = true ∧ truthy a.url = true ∧ truthy a.summary = true ∧
        deriveSource (a.url.getD "") ≠ "") := by
  unfold store_article_in_supabase
  dsimp only
  split
  · rename_i hcond
    simp only [Option.isSome_some, true_iff]
    simp only [Bool.and_eq_true, bne_iff_ne, decide_eq_true_eq] at hcond
    
    constructor
    · exact hcond.1.1.1
    constructor
    · exact hcond.1.1.2
    constructor
    · exact hcond.1.2
    · simpa using hcond.2
  · rename_i hcond
    simp only [Option.isSome_none, Bool.false_eq_true, false_iff]
    intro ⟨h1, h2, h3, h4⟩
    exact hcond (by simp [h1, h2, h3, h4])

theorem get_article_content_cases (o : FetchOutcome) :
    get_article_content o = "" ∨ 100 ≤ (get_article_content o).length := by
  cases o with
  | err => left; rfl
  | ok raw =>
    dsimp only [get_article_content]
    by_cases h : (cleanedText raw).length < 100
    · left; simp [h]
    · right; simp only [if_neg h]; omega

theorem finance_candidateLoop_mem_seen (f : Option String → String)
    (sm : Candidate → String → SummResult) (quota : Nat)
    (c : Candidate) (rest : List Candidate) (st : RunState)
    (h1 : c.url ∉ st.seen) (h2 : st.accepted.length < quota) :
    c.url ∈ (FinanceAiAgent.candidateLoop f sm quota (c :: rest) st).seen := by
  rw [FinanceAiAgent.candidateLoop, if_neg (not_or.mpr ⟨h1, Nat.not_le.mpr h2⟩)]
  dsimp only
  split
  · exact finance_candidateLoop_seen_sub f sm quota rest _ (List.mem_cons_self _ _)
  · split
    · exact finance_candidateLoop_seen_sub f sm quota rest _ (List.mem_cons_self _ _)
    · split
      · exact finance_candidateLoop_seen_sub f sm quota rest _ (List.mem_cons_self _ _)
      · split
        · exact finance_candidateLoop_seen_sub f sm quota rest _ (List.mem_cons_self _ _)
        · exact finance_candidateLoop_seen_sub f sm quota rest _ (List.mem_cons_self _ _)

theorem first_short_content_eq (f : Option String → String)
    (sm : Candidate → String → SummResult) (quota : Nat)
    (c : Candidate) (rest : List Candidate) (st : RunState)
    (h1 : c.url ∉ st.seen) (h2 : st.accepted.length < quota)
    (h3 : f c.url = "" ∨ (f c.url).length < 500) :
    FirstAiAgent.candidateLoop f sm quota (c :: rest) st
      = FirstAiAgent.candidateLoop f sm quota rest
          ⟨c.url :: st.seen, st.accepted, st.events ++ [Ev.fetch c.url]⟩ := by
  rw [FirstAiAgent.candidateLoop, if_neg h1, if_neg (Nat.not_le.mpr h2)]
  dsimp only
  rw [if_pos h3]

theorem brave_filter_urls (rs : List FinanceAiAgent.RawResult) :
    ∀ c ∈ FinanceAiAgent.execute_brave_search_filter rs, ∃ u, c.url = some u ∧ u ≠ "" := by
  intro c hc
  unfold FinanceAiAgent.execute_brave_search_filter at hc
  obtain ⟨r, hr, hrc⟩ := List.mem_map.mp hc
  have hkeep := List.of_mem_filter hr
  cases hru : r.url with
  | none =>
    rw [hru] at hkeep
    simp [FinanceAiAgent.urlKeep] at hkeep
  | some u =>
    refine ⟨u, ?_, ?_⟩
    · rw [← hrc, hru]
    · rw [hru] at hkeep
      simp only [FinanceAiAgent.urlKeep, Bool.and_eq_true, Bool.not_eq_true] at hkeep
      intro hne
      rw [hne] at hkeep
      simp at hkeep

theorem first_accept_eq (f : Option String → String)
    (sm : Candidate → String → SummResult) (quota : Nat)
    (c : Candidate) (rest : List Candidate) (st : RunState) (text : String)
    (h1 : c.url ∉ st.seen) (h2 : st.accepted.length < quota)
    (h3 : ¬(f c.url = "" ∨ (f c.url).length < 500))
    (h4 : sm c (pyTake (f c.url) 8000) = SummResult.ok text)
    (h5 : text ≠ "") (h6 : 50 < (pyStrip text).length) :
    FirstAiAgent.candidateLoop f sm quota (c :: rest) st
      = FirstAiAgent.candidateLoop f sm quota rest
          ⟨c.url :: st.seen,
            st.accepted ++ [⟨c.title, c.url, c.description, pyStrip text⟩],
            ((st.events ++ [Ev.fetch c.url]) ++ [Ev.summarize c.url])
              ++ [Ev.store ⟨c.title, c.url, c.description, pyStrip text⟩]⟩ := by
  rw [FirstAiAgent.candidateLoop, if_neg h1, if_neg (Nat.not_le.mpr h2)]
  dsimp only
  rw [if_neg h3, h4]
  dsimp only
  rw [if_neg h5, if_pos h6]

theorem first_lowquality_eq (f : Option String → String)
    (sm : Candidate → String → SummResult) (quota : Nat)
    (c : Candidate) (rest : List Candidate) (st : RunState) (text : String)
    (h1 : c.url ∉ st.seen) (h2 : st.accepted.length < quota)
    (h3 : ¬(f c.url = "" ∨ (f c.url).length < 500))
    (h4 : sm c (pyTake (f c.url) 8000) = SummResult.ok text)
    (h5 : ¬(50 < (pyStrip text).length)) :
    FirstAiAgent.candidateLoop f sm quota (c :: rest) st
      = FirstAiAgent.candidateLoop f sm quota rest
          ⟨c.url :: st.seen, st.accepted,
            (st.events ++ [Ev.fetch c.url]) ++ [Ev.summarize c.url]⟩ := by
  rw [FirstAiAgent.candidateLoop, if_neg h1, if_neg (Nat.not_le.mpr h2)]
  dsimp only
  rw [if_neg h3, h4]
  dsimp only
  by_cases h6 : text = ""
  · rw [if_pos h6]
  · rw [if_neg h6, if_neg h5]

/-! ### Claims -/

/-- C1: for every run of the ingestion pipeline and every sequence of
search results, the length of the accumulated `unique_articles` list never
exceeds the configured target quota (3 in `finance_ai_agent`, 5 in
`first_ai_agent`, and any quota for the parameterized loops): no candidate
is accepted once the accepted count has reached the quota. -/
theorem C1_result_bounded_by_quota :
    (∀ srch f sm, (FinanceAiAgent.process_financial_news srch f sm).accepted.length ≤ 3) ∧
    (∀ srch f sm, (FirstAiAgent.process_financial_news srch f sm).accepted.length ≤ 5) ∧
    (∀ srch f sm quota qs,
      (FinanceAiAgent.queryLoop srch f sm quota qs RunState.init).accepted.length ≤ quota) ∧
    (∀ srch f sm quota qs,
      (FirstAiAgent.queryLoop srch f sm quota qs RunState.init).accepted.length ≤ quota) :=
  ⟨fun srch f sm => (finance_run_inv srch f sm).2.2.1,
   fun srch f sm => (first_run_inv srch f sm).2.2.1,
   fun srch f sm quota qs =>
     (finance_queryLoop_inv srch f sm quota qs RunState.init (runInv_init f quota)).2.2.1,
   fun srch f sm quota qs =>
     (first_queryLoop_inv srch f sm quota qs RunState.init (runInv_init f quota)).2.2.1⟩

/-- C2: for every run of the ingestion pipeline, no two elements of the
returned `unique_articles` list share the same url: each url is accepted
at most once per run, in both pipeline variants. -/
theorem C2_no_duplicate_urls :
    (∀ srch f sm,
      ((FinanceAiAgent.process_financial_news srch f sm).accepted.map Article.url).Nodup) ∧
    (∀ srch f sm,
      ((FirstAiAgent.process_financial_news srch f sm).accepted.map Article.url).Nodup) :=
  ⟨fun srch f sm => (finance_run_inv srch f sm).2.1,
   fun srch f sm => (first_run_inv srch f sm).2.1⟩

set_option maxRecDepth 400000 in
/-- C8: once the accepted count has reached the quota the query loop
short-circuits before invoking the search client for any remaining query
(both pipeline variants); and in the spec scenario (queries `[a, b]`,
quota 1, query `a` yielding one acceptable candidate with url
`http://x.com`) the result is exactly one record with that url and the
search client is never invoked for `b`. -/
theorem C8_quota_short_circuits_search :
    (∀ srch f sm quota qs st, quota ≤ st.accepted.length →
      FinanceAiAgent.queryLoop srch f sm quota qs st = st) ∧
    (∀ srch f sm quota qs st, quota ≤ st.accepted.length →
      FirstAiAgent.queryLoop srch f sm quota qs st = st) ∧
    (scenC8Run.accepted.map Article.url = [some "http://x.com"] ∧
      scenC8Run.accepted.length = 1 ∧
      Ev.search "a" ∈ scenC8Run.events ∧
      Ev.search "b" ∉ scenC8Run.events) :=
  ⟨finance_queryLoop_stop, first_queryLoop_stop, by decide⟩

/-- Witness for C8: a state that already holds one accepted article
satisfies the quota-1 hypothesis, and the query loop returns it unchanged. -/
theorem C8_witness :
    1 ≤ (RunState.mk [some "u"] [Article.mk (some "T") (some "u") none (mkSummary 80)] []).accepted.length ∧
    FinanceAiAgent.queryLoop scenC8Search scenC8Fetch scenC8Summ 1 ["a", "b"]
        (RunState.mk [some "u"] [Article.mk (some "T") (some "u") none (mkSummary 80)] [])
      = RunState.mk [some "u"] [Article.mk (some "T") (some "u") none (mkSummary 80)] [] :=
  ⟨by decide,
   C8_quota_short_circuits_search.1 scenC8Search scenC8Fetch scenC8Summ 1 ["a", "b"]
     (RunState.mk [some "u"] [Article.mk (some "T") (some "u") none (mkSummary 80)] [])
     (by decide)⟩

/-- C5: a candidate whose fetched content is empty or shorter than 500
characters is discarded before summarization: every accepted record's
fetched content has length at least 500 (both pipeline variants), and the
rejection step only marks the url seen and records the fetch call,
emitting no summarize or store event and leaving the accepted list
unchanged. -/
theorem C5_short_content_rejected :
    (∀ srch f sm, ∀ a ∈ (FinanceAiAgent.process_financial_news srch f sm).accepted,
      500 ≤ (f a.url).length) ∧
    (∀ srch f sm, ∀ a ∈ (FirstAiAgent.process_financial_news srch f sm).accepted,
      500 ≤ (f a.url).length) ∧
    (∀ f sm quota c rest st, c.url ∉ st.seen → st.accepted.length < quota →
      (f c.url = "" ∨ (f c.url).length < 500) →
      FinanceAiAgent.candidateLoop f sm quota (c :: rest) st
        = FinanceAiAgent.candidateLoop f sm quota rest
            ⟨c.url :: st.seen, st.accepted, st.events ++ [Ev.fetch c.url]⟩) ∧
    (∀ f sm quota c rest st, c.url ∉ st.seen → st.accepted.length < quota →
      (f c.url = "" ∨ (f c.url).length < 500) →
      FirstAiAgent.candidateLoop f sm quota (c :: rest) st
        = FirstAiAgent.candidateLoop f sm quota rest
            ⟨c.url :: st.seen, st.accepted, st.events ++ [Ev.fetch c.url]⟩) :=
  ⟨fun srch f sm a ha => ((finance_run_inv srch f sm).1 a ha).2.2,
   fun srch f sm a ha => ((first_run_inv srch f sm).1 a ha).2.2,
   finance_short_content_eq, first_short_content_eq⟩

/-- Witness for C5: a candidate whose fetch returns the empty string is
rejected by the content gate; only the seen-set and the fetch event change. -/
theorem C5_witness :
    (Candidate.url (Candidate.mk (some "T") (some "w") none) ∉ RunState.init.seen ∧
      RunState.init.accepted.length < 3 ∧
      (cxC7Fetch (some "w") = "" ∨ (cxC7Fetch (some "w")).length < 500)) ∧
    FinanceAiAgent.candidateLoop cxC7Fetch cxC7Summ 3
        [Candidate.mk (some "T") (some "w") none] RunState.init
      = FinanceAiAgent.candidateLoop cxC7Fetch cxC7Summ 3 []
          (RunState.mk [some "w"] [] [Ev.fetch (some "w")]) :=
  ⟨⟨by decide, by decide, by decide⟩,
   C5_short_content_rejected.2.2.1 cxC7Fetch cxC7Summ 3
     (Candidate.mk (some "T") (some "w") none) [] RunState.init
     (by decide) (by decide) (by decide)⟩

/-- C6: a url is added to the seen set at its first consideration
(before the fetch, whatever happens afterwards), an already-seen url is
dropped with no state change and no fetch or summarize call, and in every
complete run of either pipeline the fetch capability and the summarizer
are invoked at most once per url. -/
theorem C6_url_marked_seen_once :
    (∀ srch f sm,
      (fetchUrls (FinanceAiAgent.process_financial_news srch f sm).events).Nodup ∧
      (summUrls (FinanceAiAgent.process_financial_news srch f sm).events).Nodup) ∧
    (∀ srch f sm,
      (fetchUrls (FirstAiAgent.process_financial_news srch f sm).events).Nodup ∧
      (summUrls (FirstAiAgent.process_financial_news srch f sm).events).Nodup) ∧
    (∀ f sm quota c rest st, c.url ∈ st.seen →
      FinanceAiAgent.candidateLoop f sm quota (c :: rest) st
        = FinanceAiAgent.candidateLoop f sm quota rest st) ∧
    (∀ f sm quota c rest st, c.url ∉ st.seen → st.accepted.length < quota →
      c.url ∈ (FinanceAiAgent.candidateLoop f sm quota (c :: rest) st).seen) :=
  ⟨fun srch f sm =>
     ⟨(finance_run_inv srch f sm).2.2.2.1, (finance_run_inv srch f sm).2.2.2.2.1⟩,
   fun srch f sm =>
     ⟨(first_run_inv srch f sm).2.2.2.1, (first_run_inv srch f sm).2.2.2.2.1⟩,
   finance_skip_eq, finance_candidateLoop_mem_seen⟩

/-- Witness for C6: a fresh url below quota ends up in the seen set of the
one-candidate loop even though the candidate is rejected (empty fetch). -/
theorem C6_witness :
    (Candidate.url (Candidate.mk (some "T") (some "u") none) ∉ RunState.init.seen ∧
      RunState.init.accepted.length < 3) ∧
    Candidate.url (Candidate.mk (some "T") (some "u") none)
      ∈ (FinanceAiAgent.candidateLoop cxC7Fetch cxC7Summ 3
          [Candidate.mk (some "T") (some "u") none] RunState.init).seen :=
  ⟨⟨by decide, by decide⟩,
   C6_url_marked_seen_once.2.2.2 cxC7Fetch cxC7Summ 3
     (Candidate.mk (some "T") (some "u") none) [] RunState.init
     (by decide) (by decide)⟩

set_option maxRecDepth 400000 in
/-- Counterexample for C3: in the `first_ai_agent` pipeline (one of the
two cited pipelines) a summarizer failure on the first candidate aborts
the run: the second candidate — which would have been accepted — is never
fetched or summarized, nothing is accepted, and no backoff sleep occurs. -/
theorem C3_counterexample :
    cxC3Summ cxC3c1 (pyTake (cxC3Fetch cxC3c1.url) 8000) = SummResult.err ∧
    Ev.summarize cxC3c1.url ∈ cxC3Run.events ∧
    Ev.fetch cxC3c2.url ∉ cxC3Run.events ∧
    Ev.summarize cxC3c2.url ∉ cxC3Run.events ∧
    cxC3Run.accepted = [] ∧
    Ev.sleepBackoff ∉ cxC3Run.events := by decide

/-- C3 (amended): in the `finance_ai_agent` pipeline a summarizer failure
is caught per-candidate: the backoff sleep is recorded and processing
continues with the next candidate, the accepted list unchanged; in the
`first_ai_agent` pipeline the same failure ends the candidate loop at
once (the exception is only contained at the run boundary), with no
backoff sleep and no processing of later candidates. -/
theorem C3_summarizer_failure_backoff :
    (∀ f sm quota c rest st, c.url ∉ st.seen → st.accepted.length < quota →
      ¬(f c.url = "" ∨ (f c.url).length < 500) →
      sm c (pyTake (f c.url) 8000) = SummResult.err →
      FinanceAiAgent.candidateLoop f sm quota (c :: rest) st
        = FinanceAiAgent.candidateLoop f sm quota rest
            ⟨c.url :: st.seen, st.accepted,
              ((st.events ++ [Ev.fetch c.url]) ++ [Ev.summarize c.url]) ++ [Ev.sleepBackoff]⟩) ∧
    (∀ f sm quota c rest st, c.url ∉ st.seen → st.accepted.length < quota →
      ¬(f c.url = "" ∨ (f c.url).length < 500) →
      sm c (pyTake (f c.url) 8000) = SummResult.err →
      FirstAiAgent.candidateLoop f sm quota (c :: rest) st
        = (⟨c.url :: st.seen, st.accepted,
            (st.events ++ [Ev.fetch c.url]) ++ [Ev.summarize c.url]⟩, true)) :=
  ⟨finance_backoff_eq, first_abort_eq⟩

set_option maxRecDepth 400000 in
/-- Witness for C3: a concrete failing summarizer call in the
`finance_ai_agent` loop records the backoff sleep and continues. -/
theorem C3_witness :
    (Candidate.url (Candidate.mk (some "T") (some "u") none) ∉ RunState.init.seen ∧
      RunState.init.accepted.length < 3 ∧
      ¬(cxC3Fetch (some "u") = "" ∨ (cxC3Fetch (some "u")).length < 500) ∧
      cxC7Summ (Candidate.mk (some "T") (some "u") none)
          (pyTake (cxC3Fetch (some "u")) 8000) = SummResult.err) ∧
    FinanceAiAgent.candidateLoop cxC3Fetch cxC7Summ 3
        [Candidate.mk (some "T") (some "u") none] RunState.init
      = FinanceAiAgent.candidateLoop cxC3Fetch cxC7Summ 3 []
          (RunState.mk [some "u"] []
            [Ev.fetch (some "u"), Ev.summarize (some "u"), Ev.sleepBackoff]) :=
  ⟨⟨by decide, by decide, by decide, by decide⟩,
   C3_summarizer_failure_backoff.1 cxC3Fetch cxC7Summ 3
     (Candidate.mk (some "T") (some "u") none) [] RunState.init
     (by decide) (by decide) (by decide) (by decide)⟩

set_option maxRecDepth 400000 in
/-- Counterexample for C4: a successful summarization whose trimmed
summary length is exactly 50 is rejected by the strict `> 50` check of the
code, so the candidate is not accepted — contradicting the claim that a
trimmed length of exactly 50 is accepted. -/
theorem C4_counterexample :
    (pyStrip (mkSummary 50)).length = 50 ∧
    cxC4Summ (Candidate.mk (some "T") (some "http://x.com") none)
        (pyTake (cxC4Fetch (some "http://x.com")) 8000) = SummResult.ok (mkSummary 50) ∧
    Ev.summarize (some "http://x.com") ∈ cxC4Run.events ∧
    cxC4Run.accepted = [] := by decide

/-- C4 (amended): a successfully summarized candidate is discarded exactly
when the trimmed summary length is at most 50 — the code requires strictly
more than 50 — so a trimmed length of exactly 50 is discarded as
low-quality; every accepted record of either pipeline has trimmed summary
length at least 51 and hence at least 50; on acceptance the record is
appended to the result list and sent to the storage sink in both
pipelines, and in the `finance_ai_agent` pipeline (only) the pacing sleep
follows — `first_ai_agent`'s accept path has no pacing sleep. -/
theorem C4_summary_length_gate :
    (∀ srch f sm, ∀ a ∈ (FinanceAiAgent.process_financial_news srch f sm).accepted,
      50 < a.summary.length) ∧
    (∀ srch f sm, ∀ a ∈ (FirstAiAgent.process_financial_news srch f sm).accepted,
      50 < a.summary.length) ∧
    (∀ f sm quota c rest st text, c.url ∉ st.seen → st.accepted.length < quota →
      ¬(f c.url = "" ∨ (f c.url).length < 500) →
      sm c (pyTake (f c.url) 8000) = SummResult.ok text →
      text ≠ "" → 50 < (pyStrip text).length →
      FinanceAiAgent.candidateLoop f sm quota (c :: rest) st
        = FinanceAiAgent.candidateLoop f sm quota rest
            ⟨c.url :: st.seen,
              st.accepted ++ [⟨c.title, c.url, c.description, pyStrip text⟩],
              ((st.events ++ [Ev.fetch c.url]) ++ [Ev.summarize c.url])
                ++ [Ev.store ⟨c.title, c.url, c.description, pyStrip text⟩, Ev.sleepPacing]⟩) ∧
    (∀ f sm quota c rest st text, c.url ∉ st.seen → st.accepted.length < quota →
      ¬(f c.url = "" ∨ (f c.url).length < 500) →
      sm c (pyTake (f c.url) 8000) = SummResult.ok text →
      text ≠ "" → 50 < (pyStrip text).length →
      FirstAiAgent.candidateLoop f sm quota (c :: rest) st
        = FirstAiAgent.candidateLoop f sm quota rest
            ⟨c.url :: st.seen,
              st.accepted ++ [⟨c.title, c.url, c.description, pyStrip text⟩],
              ((st.events ++ [Ev.fetch c.url]) ++ [Ev.summarize c.url])
                ++ [Ev.store ⟨c.title, c.url, c.description, pyStrip text⟩]⟩) ∧
    (∀ f sm quota c rest st text, c.url ∉ st.seen → st.accepted.length < quota →
      ¬(f c.url = "" ∨ (f c.url).length < 500) →
      sm c (pyTake (f c.url) 8000) = SummResult.ok text →
      ¬(50 < (pyStrip text).length) →
      FinanceAiAgent.candidateLoop f sm quota (c :: rest) st
        = FinanceAiAgent.candidateLoop f sm quota rest
            ⟨c.url :: st.seen, st.accepted,
              (st.events ++ [Ev.fetch c.url]) ++ [Ev.summarize c.url]⟩) ∧
    (∀ f sm quota c rest st text, c.url ∉ st.seen → st.accepted.length < quota →
      ¬(f c.url = "" ∨ (f c.url).length < 500) →
      sm c (pyTake (f c.url) 8000) = SummResult.ok text →
      ¬(50 < (pyStrip text).length) →
      FirstAiAgent.candidateLoop f sm quota (c :: rest) st
        = FirstAiAgent.candidateLoop f sm quota rest
            ⟨c.url :: st.seen, st.accepted,
              (st.events ++ [Ev.fetch c.url]) ++ [Ev.summarize c.url]⟩) :=
  ⟨fun srch f sm a ha => ((finance_run_inv srch f sm).1 a ha).2.1,
   fun srch f sm a ha => ((first_run_inv srch f sm).1 a ha).2.1,
   finance_accept_eq, first_accept_eq, finance_lowquality_eq, first_lowquality_eq⟩

set_option maxRecDepth 400000 in
/-- Witness for C4: a concrete accepted candidate (80-character summary)
is appended, stored and followed by the pacing sleep. -/
theorem C4_witness :
    (Candidate.url (Candidate.mk (some "T") (some "v") none) ∉ RunState.init.seen ∧
      RunState.init.accepted.length < 3 ∧
      ¬(scenC8Fetch (some "v") = "" ∨ (scenC8Fetch (some "v")).length < 500) ∧
      scenC8Summ (Candidate.mk (some "T") (some "v") none)
          (pyTake (scenC8Fetch (some "v")) 8000) = SummResult.ok (mkSummary 80) ∧
      mkSummary 80 ≠ "" ∧ 50 < (pyStrip (mkSummary 80)).length) ∧
    FinanceAiAgent.candidateLoop scenC8Fetch scenC8Summ 3
        [Candidate.mk (some "T") (some "v") none] RunState.init
      = FinanceAiAgent.candidateLoop scenC8Fetch scenC8Summ 3 []
          (RunState.mk [some "v"]
            [Article.mk (some "T") (some "v") none (pyStrip (mkSummary 80))]
            [Ev.fetch (some "v"), Ev.summarize (some "v"),
              Ev.store (Article.mk (some "T") (some "v") none (pyStrip (mkSummary 80))),
              Ev.sleepPacing]) :=
  ⟨⟨by decide, by decide, by decide, by decide, by decide, by decide⟩,
   C4_summary_length_gate.2.2.1 scenC8Fetch scenC8Summ 3
     (Candidate.mk (some "T") (some "v") none) [] RunState.init (mkSummary 80)
     (by decide) (by decide) (by decide) (by decide) (by decide) (by decide)⟩

set_option maxRecDepth 400000 in
/-- Counterexample for C7: in the `first_ai_agent` pipeline (one of the
two cited loops) a candidate whose url is missing (`None`) is not skipped:
the null url is added to the seen set and the content fetcher is invoked
on it. -/
theorem C7_counterexample :
    Ev.fetch none ∈ cxC7Run.events ∧
    none ∈ cxC7Run.seen ∧
    RunState.init.seen = [] := by decide

/-- C7 (amended): a candidate whose url is already in the seen set is
skipped with no mutation of any run state and no fetch or summarize call
(both pipeline loops); empty or null urls are not checked by the loops
themselves — in `finance_ai_agent` they never reach the loop because
`execute_brave_search` filters them out (every delivered candidate has a
nonempty url), while in `first_ai_agent` (no such filter) a null-url
candidate is processed. -/
theorem C7_skip_leaves_state_unchanged :
    (∀ f sm quota c rest st, c.url ∈ st.seen →
      FirstAiAgent.candidateLoop f sm quota (c :: rest) st
        = FirstAiAgent.candidateLoop f sm quota rest st) ∧
    (∀ f sm quota c rest st, c.url ∈ st.seen →
      FinanceAiAgent.candidateLoop f sm quota (c :: rest) st
        = FinanceAiAgent.candidateLoop f sm quota rest st) ∧
    (∀ rs : List FinanceAiAgent.RawResult,
      ∀ c ∈ FinanceAiAgent.execute_brave_search_filter rs, ∃ u, c.url = some u ∧ u ≠ "") :=
  ⟨first_skip_eq, finance_skip_eq, brave_filter_urls⟩

/-- Witness for C7: a candidate whose url is already seen leaves the
`first_ai_agent` loop state untouched. -/
theorem C7_witness :
    Candidate.url (Candidate.mk (some "T") (some "u") none)
        ∈ (RunState.mk [some "u"] [] []).seen ∧
    FirstAiAgent.candidateLoop cxC7Fetch cxC7Summ 5
        [Candidate.mk (some "T") (some "u") none] (RunState.mk [some "u"] [] [])
      = FirstAiAgent.candidateLoop cxC7Fetch cxC7Summ 5 [] (RunState.mk [some "u"] [] []) :=
  ⟨by decide,
   C7_skip_leaves_state_unchanged.1 cxC7Fetch cxC7Summ 5
     (Candidate.mk (some "T") (some "u") none) [] (RunState.mk [some "u"] [] [])
     (by decide)⟩

/-- C9: the storage sink validates before persisting: it attempts the
insert exactly when title, url, summary and the derived source are all
non-empty, returning failure without any attempt otherwise; the inserted
row carries exactly the given fields with `source` deterministically
derived from the url as its authority component, case-preserving. -/
theorem C9_store_validates_and_derives_source :
    (∀ a : StoreInput,
      (store_article_in_supabase a).isSome = true ↔
        (truthy a.title = true ∧ truthy a.url = true ∧ truthy a.summary = true ∧
          deriveSource (a.url.getD "") ≠ "")) ∧
    (∀ a : StoreInput,
      store_article_in_supabase a = none ∨
        store_article_in_supabase a
          = some ⟨a.title, a.url, a.summary, deriveSource (a.url.getD "")⟩) ∧
    deriveSource "https://Www.CNBC.com/markets/Article" = "Www.CNBC.com" ∧
    deriveSource "http://finance.Example.ORG/a/b" = "finance.Example.ORG" ∧
    deriveSource "https://" = "" ∧
    store_article_in_supabase (StoreInput.mk (some "T") (some "https://") (some "S")) = none ∧
    store_article_in_supabase (StoreInput.mk (some "T") (some "https://x.com/a") none) = none ∧
    store_article_in_supabase (StoreInput.mk (some "T") (some "https://x.com/a") (some "S"))
      = some (StoredData.mk (some "T") (some "https://x.com/a") (some "S") "x.com") :=
  ⟨store_isSome_iff, store_none_or_some, by decide, by decide, by decide,
   by decide, by decide, by decide⟩

/-- C10: the content fetcher is total on its modelled outcomes and returns
either the empty string or a cleaned text of length at least 100: every
exception yields the empty string, any cleaned text shorter than 100
characters is replaced by the empty string, and longer cleaned text is
returned unchanged. -/
theorem C10_fetcher_empty_or_long :
    get_article_content FetchOutcome.err = "" ∧
    (∀ o, get_article_content o = "" ∨ 100 ≤ (get_article_content o).length) ∧
    (∀ raw, (cleanedText raw).length < 100 →
      get_article_content (FetchOutcome.ok raw) = "") ∧
    (∀ raw, ¬(cleanedText raw).length < 100 →
      get_article_content (FetchOutcome.ok raw) = cleanedText raw) :=
  ⟨rfl, get_article_content_cases,
   fun raw h => by dsimp only [get_article_content]; rw [if_pos h],
   fun raw h => by dsimp only [get_article_content]; rw [if_neg h]⟩

/-- Witness for C10: a short page is replaced by the empty string. -/
theorem C10_witness :
    (cleanedText "too short").length < 100 ∧
    get_article_content (FetchOutcome.ok "too short") = "" :=
  ⟨by decide, C10_fetcher_empty_or_long.2.2.1 "too short" (by decide)⟩
